import Mathlib

/-!
Verification development for the Resume-Parser repository.

The definitions below are a shallow embedding of `src/parser/utils/parser.py`.
Modelling conventions:
* Python strings are `List Char` (ASCII behaviour of `str.lower`, `\w`, `\d`,
  `\s` is modelled exactly; the repository only handles resume text).
* Python floats are modelled by exact (unnormalised) rationals `PyRat`;
  on every computation the code performs (sums of one-decimal values,
  `round(_, 1)`, comparisons of similarity ratios) the float and the exact
  rational results coincide for the magnitudes involved.
* Wall-clock instants are natural-number seconds; `datetime.date` is the
  day index `t / 86400`.
* The standard-library calls (`re`, `difflib.SequenceMatcher`, `json.loads`,
  `str.split`, `str.strip`) are modelled from their documented semantics,
  specialised to exactly the way the source invokes them.
-/

namespace RP

/-- ASCII lowercasing, as Python `str.lower` on ASCII text. -/
def lowerL (s : List Char) : List Char := s.map Char.toLower

/-- Python regex word character `\w` on ASCII text. -/
def isWordChar (c : Char) : Bool := c.isAlpha || c.isDigit || c = '_'

/-- Python whitespace set used by `str.strip` and regex `\s` (ASCII). -/
def isPySpace (c : Char) : Bool :=
  c = ' ' || c = '\t' || c = '\n' || c = '\r' || c = Char.ofNat 11 || c = Char.ofNat 12

/-- Python `str.strip()`: remove leading and trailing whitespace. -/
def pyStrip (s : List Char) : List Char :=
  ((s.dropWhile isPySpace).reverse.dropWhile isPySpace).reverse

/-- Does `s` start with `pat` (exact characters). -/
def startsL : List Char → List Char → Bool
  | [], _ => true
  | _ :: _, [] => false
  | p :: ps, c :: cs => p = c && startsL ps cs

/-- Python substring containment `pat in s`. -/
def hasSubstr (pat : List Char) : List Char → Bool
  | [] => startsL pat []
  | c :: rest => startsL pat (c :: rest) || hasSubstr pat rest

/-- First occurrence of `sep` in `s`: text before it and text after it. -/
def findSep (sep : List Char) : List Char → Option (List Char × List Char)
  | [] => if startsL sep [] then some ([], []) else none
  | c :: rest =>
    if startsL sep (c :: rest) then some ([], (c :: rest).drop sep.length)
    else match findSep sep rest with
      | some (pre, post) => some (c :: pre, post)
      | none => none

/-- Python `str.split(sep)` for a non-empty separator (fuelled recursion). -/
def pySplitF (sep : List Char) : Nat → List Char → List (List Char)
  | 0, s => [s]
  | f + 1, s =>
    match findSep sep s with
    | some (pre, post) => pre :: pySplitF sep f post
    | none => [s]

/-- Python `str.split(sep)`. -/
def pySplit (sep s : List Char) : List (List Char) := pySplitF sep (s.length + 1) s

/-! ## Exact unnormalised rationals standing in for Python floats -/

/-- An exact rational with positive denominator, left unnormalised so that
every arithmetic operation reduces in the kernel. It models the Python
float values produced by the source (which are exact for all computations
the source performs on them). -/
structure PyRat where
  num : Int
  den : Int
deriving DecidableEq

/-- Embed an integer. -/
def PyRat.ofInt (n : Int) : PyRat := ⟨n, 1⟩

/-- Addition. -/
def PyRat.add (a b : PyRat) : PyRat := ⟨a.num * b.den + b.num * a.den, a.den * b.den⟩

/-- Multiplication. -/
def PyRat.mul (a b : PyRat) : PyRat := ⟨a.num * b.num, a.den * b.den⟩

/-- Division by a positive rational. -/
def PyRat.div (a b : PyRat) : PyRat := ⟨a.num * b.den, a.den * b.num⟩

/-- Order comparison (valid for positive denominators). -/
def PyRat.leb (a b : PyRat) : Bool := decide (a.num * b.den ≤ b.num * a.den)

/-- Structural gcd with fuel, so the kernel can evaluate it. -/
def gcdF : Nat → Nat → Nat → Nat
  | 0, _, n => n
  | _ + 1, 0, n => n
  | f + 1, m + 1, n => gcdF f (n % (m + 1)) (m + 1)

/-- Kernel-evaluable gcd. -/
def natGcd (m n : Nat) : Nat := gcdF (m + 1) m n

/-- Reduced (numerator, denominator) of a nonnegative `PyRat`. -/
def PyRat.reduceNN (a : PyRat) : Nat × Nat :=
  let n := a.num.natAbs
  let d := a.den.natAbs
  let g := natGcd n d
  if g = 0 then (0, 1) else (n / g, d / g)

/-- How many times `p` divides `n` (fuelled). -/
def pCountF (p : Nat) : Nat → Nat → Nat
  | 0, _ => 0
  | f + 1, n => if 2 ≤ p && n ≠ 0 && n % p = 0 then pCountF p f (n / p) + 1 else 0

/-- Number of decimal digits needed for a terminating fraction 1/d. -/
def decDigitsFor (d : Nat) : Nat := max (pCountF 2 d d) (pCountF 5 d d)

/-- Decimal digits of a natural number. -/
def natStr (n : Nat) : List Char := Nat.toDigits 10 n

/-- Python `str(int)` for a nonnegative integer. -/
def intStr (n : Int) : List Char := natStr n.natAbs

/-- Python `str(float)` for the nonnegative terminating-decimal floats the
source produces (shortest decimal form, at least one fractional digit). -/
def pyFloatStr (a : PyRat) : List Char :=
  let (n, d) := a.reduceNN
  let k := decDigitsFor d
  if k = 0 then natStr n ++ ".0".data
  else
    let ip := n / d
    let fracNum := (n % d) * 10 ^ k / d
    let ds := natStr fracNum
    natStr ip ++ ".".data ++ (List.replicate (k - ds.length) '0' ++ ds)

/-- Python banker's rounding of a nonnegative exact value to an integer. -/
def pyRoundInt (a : PyRat) : Int :=
  let q := a.num / a.den
  let r := a.num % a.den
  if 2 * r < a.den then q
  else if a.den < 2 * r then q + 1
  else if q % 2 = 0 then q else q + 1

/-- Python `round(x, 1)` on a nonnegative exact value. -/
def pyRound1 (a : PyRat) : PyRat := ⟨pyRoundInt ⟨a.num * 10, a.den⟩, 10⟩

/-- Is the value integral (Python `value == int(value)` for nonnegative x). -/
def PyRat.isWhole (a : PyRat) : Bool := a.num % a.den = 0

/-- Python `int(x)` truncation for a nonnegative value. -/
def PyRat.trunc (a : PyRat) : Int := a.num / a.den

/-! ## A small backtracking regex engine

Only the constructs the source's patterns use: single-character classes,
sequencing, greedy `*` / `+` / `?`, alternation, one capturing group level,
a one-character negative lookahead, and end-of-input. Matching returns
all match candidates in the backtracking priority order Python `re` uses
(greedy first, leftmost alternative first), so the head of the list is the
match Python would produce. -/

inductive RE where
  | cls (p : Char → Bool)
  | seq (a b : RE)
  | alt (a b : RE)
  | star (a : RE)
  | opt (a : RE)
  | grp (n : Nat) (a : RE)
  | nla (p : Char → Bool)
  | eos
  | eps

/-- Captures: group number paired with captured text. -/
abbrev Caps := List (Nat × List Char)

/-- All matches of `r` at the start of `s`, in backtracking priority order.
Each result is (rest of input, captures). The fuel (first argument) bounds
the recursion depth; it is structural so the kernel can evaluate matching,
and callers pass an amount that is ample for the source's fixed patterns. -/
def reMatch : Nat → RE → List Char → List (List Char × Caps)
  | 0, _, _ => []
  | f + 1, r, s =>
    match r with
    | .cls p =>
      match s with
      | [] => []
      | c :: rest => if p c then [(rest, [])] else []
    | .seq a b =>
      (reMatch f a s).flatMap fun pr =>
        (reMatch f b pr.1).map fun q => (q.1, pr.2 ++ q.2)
    | .alt a b => reMatch f a s ++ reMatch f b s
    | .star a =>
      ((reMatch f a s).flatMap fun pr =>
        if pr.1.length = s.length then []
        else (reMatch f (.star a) pr.1).map fun q => (q.1, pr.2 ++ q.2)) ++ [(s, [])]
    | .opt a => reMatch f a s ++ [(s, [])]
    | .grp n a =>
      (reMatch f a s).map fun pr => (pr.1, (n, s.take (s.length - pr.1.length)) :: pr.2)
    | .nla p => if (s.head?.map p).getD false then [] else [(s, [])]
    | .eos => if s.isEmpty then [(s, [])] else []
    | .eps => [(s, [])]

/-- Fuel that is ample for the source's patterns on input `s`. -/
def reFuel (s : List Char) : Nat := 64 * (s.length + 2)

/-- The match Python `re` would produce at the start of `s`, if any. -/
def reTry (r : RE) (s : List Char) : Option (List Char × Caps) := (reMatch (reFuel s) r s).head?

/-- Python `re.search`: captures of the leftmost match. -/
def reSearch (r : RE) : List Char → Option Caps
  | [] => (reTry r []).map Prod.snd
  | c :: rest =>
    match reTry r (c :: rest) with
    | some pr => some pr.2
    | none => reSearch r rest

/-- Captured text of group `n`. -/
def capGet (caps : Caps) (n : Nat) : Option (List Char) :=
  (List.find? (fun pr => pr.1 = n) caps).map Prod.snd

/-- Python `re.sub`: replace every non-overlapping match of `r` by `repl`,
scanning left to right (fuelled; callers pass `s.length + 1`). -/
def reSubF (r : RE) (repl : List Char) : Nat → List Char → List Char
  | 0, s => s
  | f + 1, s =>
    match reTry r s with
    | some pr =>
      if pr.1.length = s.length then
        match s with
        | [] => repl
        | c :: rest => repl ++ c :: reSubF r repl f rest
      else repl ++ reSubF r repl f pr.1
    | none =>
      match s with
      | [] => []
      | c :: rest => c :: reSubF r repl f rest

/-- Python `re.sub(pattern, repl, s)`. -/
def reSub (r : RE) (repl s : List Char) : List Char := reSubF r repl (s.length + 1) s

/-- Case-insensitive literal sequence. -/
def ciSeq (cs : List Char) : RE :=
  cs.foldr (fun c r => RE.seq (RE.cls fun x => x.toLower = c.toLower) r) RE.eps

/-- Case-sensitive literal sequence. -/
def litSeq (cs : List Char) : RE :=
  cs.foldr (fun c r => RE.seq (RE.cls fun x => x = c) r) RE.eps

/-- Greedy `+`. -/
def REplus (a : RE) : RE := RE.seq a (RE.star a)

/-- Regex `\d`. -/
def digitCls : RE := RE.cls Char.isDigit

/-- Regex `\s*`. -/
def wsStar : RE := RE.star (RE.cls isPySpace)

/-! ## fix_ocr_artifacts (`parser.py` lines 189-211) -/

/-- The five domains of the OCR e-mail repair table. -/
def emailDomains : List (List Char) :=
  ["gmail".data, "yahoo".data, "hotmail".data, "outlook".data, "icloud".data]

/-- The pattern of one repair entry: `@<domain>\.c(?:om)?(?!\w)`, IGNORECASE. -/
def emailFixRE (d : List Char) : RE :=
  RE.seq (ciSeq ('@' :: d ++ ".c".data)) (RE.seq (RE.opt (ciSeq "om".data)) (RE.nla isWordChar))

/-- The replacement text of one repair entry: `@<domain>.com`. -/
def emailFixRepl (d : List Char) : List Char := '@' :: d ++ ".com".data

/-- One pass of `re.sub(r'(?<=[a-zA-Z])D(?=[a-zA-Z])', R, text)` for a digit
`D`: replace `D` by `R` wherever both neighbours in the input are ASCII
letters (the lookaround tests read the original text). -/
def fixDigitPass (dig rep : Char) : Option Char → List Char → List Char
  | _, [] => []
  | prev, c :: rest =>
    let hit := c = dig && (prev.map Char.isAlpha).getD false
        && ((rest.head?).map Char.isAlpha).getD false
    (if hit then rep else c) :: fixDigitPass dig rep (some c) rest

/-- `fix_ocr_artifacts`: e-mail domain repairs, then `|`→`I`, then `0`→`O`
and `1`→`l` between letters. -/
def fix_ocr_artifacts (t : List Char) : List Char :=
  if t = [] then t
  else
    let t1 := emailDomains.foldl (fun acc d => reSub (emailFixRE d) (emailFixRepl d) acc) t
    let t2 := t1.map fun c => if c = '|' then 'I' else c
    let t3 := fixDigitPass '0' 'O' none t2
    fixDigitPass '1' 'l' none t3

/-! ## validate_email / validate_phone (`parser.py` lines 214-243) -/

/-- The anchored e-mail shape `^[a-zA-Z0-9._%+-]+@[a-zA-Z0-9.-]+\.[a-zA-Z]{2,}$`. -/
def emailRE : RE :=
  let local_ := RE.cls fun c => c.isAlpha || c.isDigit || c = '.' || c = '_' || c = '%' || c = '+' || c = '-'
  let dom := RE.cls fun c => c.isAlpha || c.isDigit || c = '.' || c = '-'
  let alpha := RE.cls Char.isAlpha
  RE.seq (REplus local_) (RE.seq (litSeq "@".data) (RE.seq (REplus dom)
    (RE.seq (litSeq ".".data) (RE.seq alpha (RE.seq (REplus alpha) RE.eos)))))

/-- `validate_email`: OCR repairs then the anchored shape check; returns the
lowercased (repaired) address. -/
def validate_email (email : List Char) : Option (List Char) :=
  if email = [] then none
  else
    let e := fix_ocr_artifacts email
    if (reTry emailRE e).isSome then some (lowerL e) else none

/-- `validate_phone`: keep digits and `+`; accept when the digit count
(excluding `+`) is between 10 and 15; returns the original string. -/
def validate_phone (phone : List Char) : Option (List Char) :=
  if phone = [] then none
  else
    let digits := phone.filter fun c => c.isDigit || c = '+'
    let n := (digits.filter fun c => c ≠ '+').length
    if 10 ≤ n ∧ n ≤ 15 then some phone else none

/-! ## Claim C2: OCR e-mail domain repair -/

/-- C2 counterexample: the source regex `@gmail\.c(?:om)?(?!\w)` cannot match
`@gmail.co` (after matching the bare `c` the negative lookahead sees the word
character `o`), so contrary to the claim, `fix_ocr_artifacts "john@gmail.co"`
does not contain `john@gmail.com`. -/
theorem claim_C2_counterexample :
    hasSubstr ("john@gmail.com".data) (fix_ocr_artifacts ("john@gmail.co".data)) = false := by
  decide

/-- C2 (amended): for each of the five domains, an address ending in a bare
`.c` (case-insensitively) is repaired to `.com`, an already-complete `.com`
is left intact, and an address ending in `.co` is left unchanged (not
repaired); in particular `fix_ocr_artifacts "john@gmail.c"` contains
`john@gmail.com`. -/
theorem claim_C2 :
    (∀ d ∈ emailDomains,
      fix_ocr_artifacts ("john@".data ++ d ++ ".c".data) = "john@".data ++ d ++ ".com".data ∧
      fix_ocr_artifacts ("john@".data ++ d ++ ".com".data) = "john@".data ++ d ++ ".com".data ∧
      fix_ocr_artifacts ("john@".data ++ d ++ ".co".data) = "john@".data ++ d ++ ".co".data) ∧
    fix_ocr_artifacts ("JOHN@GMAIL.C".data) = "JOHN@gmail.com".data ∧
    hasSubstr ("john@gmail.com".data) (fix_ocr_artifacts ("john@gmail.c".data)) = true := by
  decide

/-- Witness for C2: the amended repair theorem applied to the concrete
domain `yahoo`. -/
theorem claim_C2_witness :
    fix_ocr_artifacts ("john@yahoo.c".data) = "john@yahoo.com".data :=
  (claim_C2.1 ("yahoo".data) (by decide)).1

/-! ## difflib.SequenceMatcher(None, a, b).ratio()

`deduplicate_lines` measures similarity with
`SequenceMatcher(None, line.lower(), unique_line.lower()).ratio()`.
The model below follows the difflib implementation: the second sequence is
indexed by `b2j` with the autojunk purge of popular elements (elements of a
`b` of length >= 200 occurring more than `len(b) // 100 + 1` times); with
`isjunk=None` the junk set is empty, so of the four extension loops of
`find_longest_match` only the two plain-element ones can act. -/

/-- Number of occurrences of `c` in `l`. -/
def countc (c : Char) (l : List Char) : Nat := (l.filter (fun x => x = c)).length

/-- The autojunk popularity test on the second sequence. -/
def isPopular (b : List Char) (c : Char) : Bool :=
  decide (200 ≤ b.length) && decide (b.length / 100 + 1 < countc c b)

/-- Positions of `c` in `b`, with popular elements purged (difflib `b2j`). -/
def b2j (b : List Char) (c : Char) : List Nat :=
  if isPopular b c then []
  else (List.range b.length).filter (fun j => b.getD j (Char.ofNat 0) = c)

/-- Lookup in the `j2len` row map (missing keys give 0). -/
def j2get (m : List (Nat × Nat)) (j : Nat) : Nat :=
  ((m.find? (fun pr => pr.1 = j)).map Prod.snd).getD 0

/-- One row of the `find_longest_match` dynamic programme: process the
in-range `b`-positions of `a[i]`, building the new row map and updating the
best block (difflib updates only on a strictly larger size). -/
def flmRow (j2len : List (Nat × Nat)) (js : List Nat) (i : Nat)
    (best : Nat × Nat × Nat) : List (Nat × Nat) × (Nat × Nat × Nat) :=
  js.foldl
    (fun acc j =>
      let (newm, bi, bj, bs) := acc
      let k := if j = 0 then 1 else j2get j2len (j - 1) + 1
      let newm2 := (j, k) :: newm
      if bs < k then (newm2, (i + 1 - k, j + 1 - k, k)) else (newm2, (bi, bj, bs)))
    ([], best)

/-- The dynamic programme of `find_longest_match` over `a[alo:ahi]`,
`b[blo:bhi]`. -/
def flmDP (a b : List Char) (alo ahi blo bhi : Nat) : Nat × Nat × Nat :=
  ((List.range' alo (ahi - alo)).foldl
    (fun (acc : List (Nat × Nat) × (Nat × Nat × Nat)) i =>
      let js := (b2j b (a.getD i (Char.ofNat 0))).filter
        (fun j => decide (blo ≤ j) && decide (j < bhi))
      flmRow acc.1 js i acc.2)
    ([], (alo, blo, 0))).2

/-- Backward extension loop of `find_longest_match` (the junk set is empty). -/
def extBack (a b : List Char) (alo blo : Nat) : Nat → Nat × Nat × Nat → Nat × Nat × Nat
  | 0, st => st
  | f + 1, st =>
    let (bi, bj, bs) := st
    if alo < bi ∧ blo < bj ∧ a.getD (bi - 1) (Char.ofNat 0) = b.getD (bj - 1) (Char.ofNat 0)
    then extBack a b alo blo f (bi - 1, bj - 1, bs + 1)
    else st

/-- Forward extension loop of `find_longest_match` (the junk set is empty). -/
def extFwd (a b : List Char) (ahi bhi : Nat) : Nat → Nat × Nat × Nat → Nat × Nat × Nat
  | 0, st => st
  | f + 1, st =>
    let (bi, bj, bs) := st
    if bi + bs < ahi ∧ bj + bs < bhi ∧ a.getD (bi + bs) (Char.ofNat 0) = b.getD (bj + bs) (Char.ofNat 0)
    then extFwd a b ahi bhi f (bi, bj, bs + 1)
    else st

/-- difflib `SequenceMatcher.find_longest_match` on the given region. -/
def find_longest_match (a b : List Char) (alo ahi blo bhi : Nat) : Nat × Nat × Nat :=
  extFwd a b ahi bhi (ahi + 1) (extBack a b alo blo (ahi + 1) (flmDP a b alo ahi blo bhi))

/-- Total size of the matching blocks found by the recursive decomposition of
`get_matching_blocks` (fuelled; callers pass an ample amount). -/
def matchTotalF (a b : List Char) : Nat → Nat → Nat → Nat → Nat → Nat
  | 0, _, _, _, _ => 0
  | f + 1, alo, ahi, blo, bhi =>
    let (i, j, k) := find_longest_match a b alo ahi blo bhi
    if k = 0 then 0
    else matchTotalF a b f alo i blo j + k + matchTotalF a b f (i + k) ahi (j + k) bhi

/-- Total matched size over the whole sequences. -/
def matchingTotal (a b : List Char) : Nat :=
  matchTotalF a b (a.length + b.length + 1) 0 a.length 0 b.length

/-- `SequenceMatcher(None, a, b).ratio() = 2*M / (len(a)+len(b))` (1.0 when
both are empty, as in difflib `_calculate_ratio`). -/
def simScore (a b : List Char) : PyRat :=
  if a.length + b.length = 0 then ⟨1, 1⟩
  else ⟨2 * (matchingTotal a b : Int), ((a.length + b.length : Nat) : Int)⟩

/-! ## deduplicate_lines (`parser.py` lines 164-186) -/

/-- The similarity the source computes for a candidate line against an
already-kept line: `SequenceMatcher(None, line.lower(), unique_line.lower()).ratio()`. -/
def lineSim (line uniq : List Char) : PyRat := simScore (lowerL line) (lowerL uniq)

/-- The default `similarity_threshold=0.85`. -/
def SIMILARITY_THRESHOLD_DEFAULT : PyRat := ⟨85, 100⟩

/-- The inner duplicate check: is some already-kept line at least
`t`-similar to the (stripped) candidate. -/
def isDuplicateOf (t : PyRat) (l : List Char) (uniq : List (List Char)) : Bool :=
  uniq.any (fun u => PyRat.leb t (lineSim l u))

/-- The loop of `deduplicate_lines`, accumulating kept lines in order. -/
def dedupAux (t : PyRat) (uniq : List (List Char)) : List (List Char) → List (List Char)
  | [] => uniq
  | line :: rest =>
    let l := pyStrip line
    if l = [] then dedupAux t uniq rest
    else if isDuplicateOf t l uniq then dedupAux t uniq rest
    else dedupAux t (uniq ++ [l]) rest

/-- `deduplicate_lines(lines, similarity_threshold)`. -/
def deduplicate_lines (lines : List (List Char)) (t : PyRat) : List (List Char) :=
  dedupAux t [] lines

/-! ## Structural lemmas about stripping and the deduplication loop -/

/-- Dropping a satisfied prefix twice is the same as once. -/
theorem dropWhile_dropWhile (p : Char → Bool) (l : List Char) :
    (l.dropWhile p).dropWhile p = l.dropWhile p := by
  induction l with
  | nil => rfl
  | cons a t ih =>
    cases hpa : p a with
    | true => simp [List.dropWhile_cons, hpa, ih]
    | false => simp [List.dropWhile_cons, hpa]

/-- The head surviving a dropWhile fails the predicate. -/
theorem head_dropWhile_false (p : Char → Bool) :
    ∀ (l : List Char) (c : Char), (l.dropWhile p).head? = some c → p c = false := by
  intro l
  induction l with
  | nil => intro c h; simp [List.dropWhile] at h
  | cons a t ih =>
    intro c h
    cases hpa : p a with
    | true => exact ih c (by simpa [List.dropWhile_cons, hpa] using h)
    | false =>
      simp [List.dropWhile_cons, hpa] at h
      exact h ▸ hpa

/-- A list whose head fails the predicate is unchanged by dropWhile. -/
theorem dropWhile_of_head_false (p : Char → Bool) (l : List Char)
    (h : ∀ c, l.head? = some c → p c = false) : l.dropWhile p = l := by
  cases l with
  | nil => rfl
  | cons a t => simp [List.dropWhile_cons, h a rfl]

/-- Python strip is idempotent. -/
theorem pyStrip_idem (s : List Char) : pyStrip (pyStrip s) = pyStrip s := by
  unfold pyStrip
  set p := isPySpace with hp
  set A := s.dropWhile p with hA
  set C := A.reverse.dropWhile p with hC
  have h1 : C.reverse.dropWhile p = C.reverse := by
    apply dropWhile_of_head_false
    intro c hc
    obtain ⟨pre, hpre⟩ : C <:+ A.reverse := hC ▸ List.dropWhile_suffix p
    have hCA : A = C.reverse ++ pre.reverse := by
      have h' := congrArg List.reverse hpre
      simpa [List.reverse_append] using h'.symm
    apply head_dropWhile_false p s c
    rw [← hA]
    cases hrev : C.reverse with
    | nil => rw [hrev] at hc; simp at hc
    | cons x xs =>
      rw [hrev] at hc
      simp at hc
      rw [hCA, hrev]
      simp [hc]
  have h2 : C.dropWhile p = C := by
    rw [hC]
    exact dropWhile_dropWhile p A.reverse
  rw [h1, List.reverse_reverse, h2]

/-- The empty-line branch of the deduplication loop. -/
theorem dedupAux_cons_blank (t : PyRat) (uniq : List (List Char)) (line : List Char)
    (rest : List (List Char)) (h : pyStrip line = []) :
    dedupAux t uniq (line :: rest) = dedupAux t uniq rest := by
  simp [dedupAux, h]

/-- The near-duplicate branch of the deduplication loop. -/
theorem dedupAux_cons_dup (t : PyRat) (uniq : List (List Char)) (line : List Char)
    (rest : List (List Char)) (h : pyStrip line ≠ [])
    (hd : isDuplicateOf t (pyStrip line) uniq = true) :
    dedupAux t uniq (line :: rest) = dedupAux t uniq rest := by
  simp [dedupAux, h, hd]

/-- The keep branch of the deduplication loop. -/
theorem dedupAux_cons_new (t : PyRat) (uniq : List (List Char)) (line : List Char)
    (rest : List (List Char)) (h : pyStrip line ≠ [])
    (hd : isDuplicateOf t (pyStrip line) uniq = false) :
    dedupAux t uniq (line :: rest) = dedupAux t (uniq ++ [pyStrip line]) rest := by
  simp [dedupAux, h, hd]

/-- Master description of the deduplication loop: it only appends; what it
appends is an order-preserving selection of the stripped input lines, each
non-empty, strip-stable, below threshold against every line already kept,
and pairwise below threshold among themselves. -/
theorem dedupAux_spec (t : PyRat) :
    ∀ (L uniq : List (List Char)), ∃ new,
      dedupAux t uniq L = uniq ++ new ∧
      new.Sublist (L.map pyStrip) ∧
      (∀ l ∈ new, l ≠ [] ∧ pyStrip l = l) ∧
      (∀ u ∈ uniq, ∀ l ∈ new, PyRat.leb t (lineSim l u) = false) ∧
      new.Pairwise (fun a b => PyRat.leb t (lineSim b a) = false) := by
  intro L
  induction L with
  | nil =>
    intro uniq
    exact ⟨[], by simp [dedupAux], List.nil_sublist _, by simp, by simp, by simp⟩
  | cons line rest ih =>
    intro uniq
    by_cases hb : pyStrip line = []
    · obtain ⟨new, h1, h2, h3, h4, h5⟩ := ih uniq
      exact ⟨new, by rw [dedupAux_cons_blank t uniq line rest hb]; exact h1,
        h2.cons _, h3, h4, h5⟩
    · cases hd : isDuplicateOf t (pyStrip line) uniq with
      | true =>
        obtain ⟨new, h1, h2, h3, h4, h5⟩ := ih uniq
        exact ⟨new, by rw [dedupAux_cons_dup t uniq line rest hb hd]; exact h1,
          h2.cons _, h3, h4, h5⟩
      | false =>
        obtain ⟨new, h1, h2, h3, h4, h5⟩ := ih (uniq ++ [pyStrip line])
        have hnot : ∀ u ∈ uniq, PyRat.leb t (lineSim (pyStrip line) u) = false := by
          intro u hu
          have h' := hd
          unfold isDuplicateOf at h'
          rw [List.any_eq_false] at h'
          simpa using h' u hu
        refine ⟨pyStrip line :: new, ?_, ?_, ?_, ?_, ?_⟩
        · rw [dedupAux_cons_new t uniq line rest hb hd, h1]
          simp
        · exact h2.cons₂ _
        · intro l hl
          rcases List.mem_cons.mp hl with rfl | hl'
          · exact ⟨hb, pyStrip_idem line⟩
          · exact h3 l hl'
        · intro u hu l hl
          rcases List.mem_cons.mp hl with rfl | hl'
          · exact hnot u hu
          · exact h4 u (by simp [hu]) l hl'
        · rw [List.pairwise_cons]
          refine ⟨fun b hb' => h4 (pyStrip line) (by simp) b hb', h5⟩

/-- Replaying the loop on its own appended output changes nothing. -/
theorem dedupAux_replay (t : PyRat) :
    ∀ (L uniq new : List (List Char)),
      dedupAux t uniq L = uniq ++ new → dedupAux t uniq new = uniq ++ new := by
  intro L
  induction L with
  | nil =>
    intro uniq new h
    have hlen := congrArg List.length h
    simp [dedupAux] at hlen
    have hnil : new = [] := hlen
    subst hnil
    simp [dedupAux]
  | cons line rest ih =>
    intro uniq new h
    by_cases hb : pyStrip line = []
    · rw [dedupAux_cons_blank t uniq line rest hb] at h
      exact ih uniq new h
    · cases hd : isDuplicateOf t (pyStrip line) uniq with
      | true =>
        rw [dedupAux_cons_dup t uniq line rest hb hd] at h
        exact ih uniq new h
      | false =>
        rw [dedupAux_cons_new t uniq line rest hb hd] at h
        obtain ⟨new2, h2, -, -, -, -⟩ := dedupAux_spec t rest (uniq ++ [pyStrip line])
        rw [h2, List.append_assoc] at h
        have hnew : new = pyStrip line :: new2 := by
          have h' := List.append_cancel_left h
          simpa using h'.symm
        subst hnew
        have hstep := dedupAux_cons_new t uniq (pyStrip line) new2
          (by rw [pyStrip_idem]; exact hb) (by rw [pyStrip_idem]; exact hd)
        rw [hstep, pyStrip_idem]
        rw [ih (uniq ++ [pyStrip line]) new2 h2]
        simp

/-- C7: at the default similarity threshold, deduplicating twice equals
deduplicating once, for every line sequence. -/
theorem claim_C7 (L : List (List Char)) :
    deduplicate_lines (deduplicate_lines L SIMILARITY_THRESHOLD_DEFAULT)
        SIMILARITY_THRESHOLD_DEFAULT
      = deduplicate_lines L SIMILARITY_THRESHOLD_DEFAULT := by
  unfold deduplicate_lines
  obtain ⟨new, h1, -, -, -, -⟩ := dedupAux_spec SIMILARITY_THRESHOLD_DEFAULT L []
  have h1' : dedupAux SIMILARITY_THRESHOLD_DEFAULT [] L = new := by simpa using h1
  rw [h1']
  have := dedupAux_replay SIMILARITY_THRESHOLD_DEFAULT L [] new (by simpa using h1')
  simpa using this

/-- C8: a blank or whitespace-only line is dropped; a non-blank line is
dropped exactly when some already-kept line reaches the threshold and is
appended stripped otherwise; at the boundary, the spec pair has similarity
exactly 30/32 against the kept line, so with threshold 30/32 the second
line is dropped while with a threshold just above it both are kept. -/
theorem claim_C8 :
    (∀ (t : PyRat) (uniq : List (List Char)) (line : List Char) (rest : List (List Char)),
        pyStrip line = [] → dedupAux t uniq (line :: rest) = dedupAux t uniq rest) ∧
    (∀ (t : PyRat) (uniq : List (List Char)) (line : List Char) (rest : List (List Char)),
        pyStrip line ≠ [] →
        (∃ u ∈ uniq, PyRat.leb t (lineSim (pyStrip line) u) = true) →
        dedupAux t uniq (line :: rest) = dedupAux t uniq rest) ∧
    (∀ (t : PyRat) (uniq : List (List Char)) (line : List Char) (rest : List (List Char)),
        pyStrip line ≠ [] →
        (∀ u ∈ uniq, PyRat.leb t (lineSim (pyStrip line) u) = false) →
        dedupAux t uniq (line :: rest) = dedupAux t (uniq ++ [pyStrip line]) rest) ∧
    lineSim ("Python Develop3r".data) ("Python Developer".data) = ⟨30, 32⟩ ∧
    deduplicate_lines ["Python Developer".data, "Python Develop3r".data] ⟨30, 32⟩
      = ["Python Developer".data] ∧
    deduplicate_lines ["Python Developer".data, "Python Develop3r".data] ⟨9376, 10000⟩
      = ["Python Developer".data, "Python Develop3r".data] := by
  refine ⟨?_, ?_, ?_, by decide, by decide, by decide⟩
  · intro t uniq line rest h
    exact dedupAux_cons_blank t uniq line rest h
  · intro t uniq line rest h hex
    apply dedupAux_cons_dup t uniq line rest h
    unfold isDuplicateOf
    rw [List.any_eq_true]
    obtain ⟨u, hu, hle⟩ := hex
    exact ⟨u, hu, hle⟩
  · intro t uniq line rest h hall
    apply dedupAux_cons_new t uniq line rest h
    unfold isDuplicateOf
    rw [List.any_eq_false]
    intro u hu
    simp [hall u hu]

/-- Witness for C8: the keep branch applied to a concrete non-blank line
with no kept lines. -/
theorem claim_C8_witness :
    dedupAux SIMILARITY_THRESHOLD_DEFAULT [] ["abc".data]
      = dedupAux SIMILARITY_THRESHOLD_DEFAULT ([] ++ [pyStrip "abc".data]) [] :=
  claim_C8.2.2.1 SIMILARITY_THRESHOLD_DEFAULT [] ("abc".data) [] (by decide)
    (by intro u hu; exact absurd hu (List.not_mem_nil u))

/-- C10: every output line of deduplicate_lines is non-empty and is the
strip of some input line, the output is an order-preserving selection of
the stripped inputs, and every later output line is strictly below the
threshold against every earlier one. -/
theorem claim_C10 (t : PyRat) (L : List (List Char)) :
    (∀ l ∈ deduplicate_lines L t, l ≠ [] ∧ ∃ x ∈ L, l = pyStrip x) ∧
    (deduplicate_lines L t).Sublist (L.map pyStrip) ∧
    (deduplicate_lines L t).Pairwise (fun a b => PyRat.leb t (lineSim b a) = false) := by
  unfold deduplicate_lines
  obtain ⟨new, h1, h2, h3, h4, h5⟩ := dedupAux_spec t L []
  have h1' : dedupAux t [] L = new := by simpa using h1
  rw [h1']
  refine ⟨?_, h2, h5⟩
  intro l hl
  refine ⟨(h3 l hl).1, ?_⟩
  obtain ⟨x, hx, hxe⟩ := List.mem_map.mp (h2.subset hl)
  exact ⟨x, hx, hxe.symm⟩

/-- Witness for C10: the invariants instantiated on a concrete input list,
with the membership hypothesis discharged by evaluation. -/
theorem claim_C10_witness :
    "a".data ≠ [] ∧ ∃ x ∈ ["a".data, " a ".data], "a".data = pyStrip x :=
  (claim_C10 SIMILARITY_THRESHOLD_DEFAULT ["a".data, " a ".data]).1 ("a".data) (by decide)

/-! ## JSON values and json.loads

`_parse_json_response` feeds the (fence-stripped) response text to Python
`json.loads`. JSON values are modelled with distinct integer and float
numbers (as `json.loads` distinguishes them); `Json.null` plays the role of
Python `None`, which is also what `dict.get` returns for a missing key. -/

inductive Json where
  | null
  | bool (b : Bool)
  | jint (n : Int)
  | jfloat (q : PyRat)
  | str (s : List Char)
  | arr (elems : List Json)
  | obj (kvs : List (List Char × Json))

/-- Python truthiness of a JSON-decoded value. -/
def pyTruthy : Json → Bool
  | .null => false
  | .bool b => b
  | .jint n => decide (n ≠ 0)
  | .jfloat q => decide (q.num ≠ 0)
  | .str s => !s.isEmpty
  | .arr l => !l.isEmpty
  | .obj l => !l.isEmpty

/-- Python `str(int)`. -/
def pyIntStr (n : Int) : List Char :=
  if n < 0 then '-' :: natStr n.natAbs else natStr n.natAbs

/-- Python `str()` of a JSON-decoded value. The container forms are
abbreviated placeholders: no theorem in this file depends on them and the
source only ever stringifies scalar fields. -/
def pyStr : Json → List Char
  | .null => "None".data
  | .bool true => "True".data
  | .bool false => "False".data
  | .jint n => pyIntStr n
  | .jfloat q => pyFloatStr q
  | .str s => s
  | .arr _ => "[...]".data
  | .obj _ => "\x7b...\x7d".data

/-- Python dict lookup on a decoded JSON object: later duplicate keys
overwrite earlier ones, a missing key gives `none`. -/
def dictGet? (kvs : List (List Char × Json)) (k : List Char) : Option Json :=
  (kvs.reverse.find? (fun pr => pr.1 = k)).map Prod.snd

/-- Python `dict.get(k)` (missing key gives `None`). -/
def dictGet (kvs : List (List Char × Json)) (k : List Char) : Json :=
  (dictGet? kvs k).getD Json.null

/-- JSON whitespace. -/
def isJsonWs (c : Char) : Bool := c = ' ' || c = '\t' || c = '\n' || c = '\r'

/-- Skip JSON whitespace. -/
def skipWs (s : List Char) : List Char := s.dropWhile isJsonWs

/-- Value of a hex digit. -/
def hexVal (c : Char) : Option Nat :=
  if c.isDigit then some (c.toNat - 48)
  else if 'a' ≤ c ∧ c ≤ 'f' then some (c.toNat - 87)
  else if 'A' ≤ c ∧ c ≤ 'F' then some (c.toNat - 55)
  else none

/-- Parse the body of a JSON string after the opening quote; strict mode
(unescaped control characters and invalid escapes are errors). -/
def parseJStr : List Char → Option (List Char × List Char)
  | [] => none
  | c :: rest =>
    if c = '"' then some ([], rest)
    else if c = '\\' then
      match rest with
      | [] => none
      | e :: rest2 =>
        if e = 'u' then
          match rest2 with
          | h1 :: h2 :: h3 :: h4 :: rest3 =>
            match hexVal h1, hexVal h2, hexVal h3, hexVal h4 with
            | some a, some b, some c2, some d =>
              (parseJStr rest3).map fun pr =>
                (Char.ofNat (((a * 16 + b) * 16 + c2) * 16 + d) :: pr.1, pr.2)
            | _, _, _, _ => none
          | _ => none
        else
          match (if e = '"' then some '"' else if e = '\\' then some '\\'
            else if e = '/' then some '/' else if e = 'b' then some (Char.ofNat 8)
            else if e = 'f' then some (Char.ofNat 12) else if e = 'n' then some '\n'
            else if e = 'r' then some '\r' else if e = 't' then some '\t'
            else none) with
          | some d => (parseJStr rest2).map fun pr => (d :: pr.1, pr.2)
          | none => none
    else if c.toNat < 32 then none
    else (parseJStr rest).map fun pr => (c :: pr.1, pr.2)

/-- Digits to a natural number. -/
def digitsToNat (ds : List Char) : Nat := ds.foldl (fun a c => a * 10 + (c.toNat - 48)) 0

/-- The optional exponent part and assembly of a JSON number. -/
def parseJNumExp (neg : Bool) (ip : Int) (fr : List Char) (s : List Char) : Option (Json × List Char) :=
  let mant : PyRat := ⟨ip * ((10 ^ fr.length : Nat) : Int) + (digitsToNat fr : Nat), ((10 ^ fr.length : Nat) : Int)⟩
  let signedOf : PyRat → PyRat := fun m => if neg then ⟨-m.num, m.den⟩ else m
  match s with
  | c :: t =>
    if c = 'e' ∨ c = 'E' then
      let (eneg, t1) : Bool × List Char :=
        match t with
        | '+' :: u => (false, u)
        | '-' :: u => (true, u)
        | _ => (false, t)
      let eds := t1.takeWhile Char.isDigit
      let t2 := t1.dropWhile Char.isDigit
      if eds = [] then none
      else
        let e := digitsToNat eds
        let mag : PyRat :=
          if eneg then ⟨mant.num, mant.den * ((10 ^ e : Nat) : Int)⟩
          else ⟨mant.num * ((10 ^ e : Nat) : Int), mant.den⟩
        some (Json.jfloat (signedOf mag), t2)
    else if fr = [] then some (Json.jint (if neg then -ip else ip), s)
    else some (Json.jfloat (signedOf mant), s)
  | [] =>
    if fr = [] then some (Json.jint (if neg then -ip else ip), s)
    else some (Json.jfloat (signedOf mant), s)

/-- Parse a JSON number: `-?(0|[1-9][0-9]*)(\.[0-9]+)?([eE][+-]?[0-9]+)?`;
an integer without fraction or exponent decodes to a Python int, anything
else to a float. -/
def parseJNum (s : List Char) : Option (Json × List Char) :=
  let (neg, s1) : Bool × List Char :=
    match s with
    | '-' :: t => (true, t)
    | _ => (false, s)
  let intDigits := s1.takeWhile Char.isDigit
  let s2 := s1.dropWhile Char.isDigit
  if intDigits = [] then none
  else if 1 < intDigits.length ∧ intDigits.headD '0' = '0' then none
  else
    let ip : Int := (digitsToNat intDigits : Nat)
    let (fr, s3) : List Char × List Char :=
      match s2 with
      | '.' :: t => (t.takeWhile Char.isDigit, t.dropWhile Char.isDigit)
      | _ => ([], s2)
    match s2 with
    | '.' :: t =>
      if t.takeWhile Char.isDigit = [] then none
      else parseJNumExp neg ip fr s3
    | _ => parseJNumExp neg ip fr s3

/-- The recursive JSON value parser. The first fuel argument is structural
so that the kernel can evaluate parsing; `mode = 1` parses the items of a
non-empty array up to `]`, `mode = 2` the members of a non-empty object up
to the closing brace, and any other mode parses one value. -/
def parseJCore : Nat → Nat → List Char → Option (Json × List Char)
  | 0, _, _ => none
  | f + 1, mode, s =>
    if mode = 1 then
      match parseJCore f 0 s with
      | none => none
      | some (v, r) =>
        match skipWs r with
        | ',' :: r2 =>
          match parseJCore f 1 r2 with
          | some (Json.arr items, r3) => some (Json.arr (v :: items), r3)
          | _ => none
        | c :: r2 => if c = Char.ofNat 93 then some (Json.arr [v], r2) else none
        | [] => none
    else if mode = 2 then
      match skipWs s with
      | c :: r =>
        if c = '"' then
          match parseJStr r with
          | none => none
          | some (key, r1) =>
            match skipWs r1 with
            | ':' :: r2 =>
              match parseJCore f 0 r2 with
              | none => none
              | some (v, r3) =>
                match skipWs r3 with
                | ',' :: r4 =>
                  match parseJCore f 2 r4 with
                  | some (Json.obj kvs, r5) => some (Json.obj ((key, v) :: kvs), r5)
                  | _ => none
                | c2 :: r4 => if c2 = Char.ofNat 125 then some (Json.obj [(key, v)], r4) else none
                | [] => none
            | _ => none
        else none
      | [] => none
    else
      match skipWs s with
      | [] => none
      | c :: rest =>
        if c = 'n' then
          match rest with
          | 'u' :: 'l' :: 'l' :: r => some (Json.null, r)
          | _ => none
        else if c = 't' then
          match rest with
          | 'r' :: 'u' :: 'e' :: r => some (Json.bool true, r)
          | _ => none
        else if c = 'f' then
          match rest with
          | 'a' :: 'l' :: 's' :: 'e' :: r => some (Json.bool false, r)
          | _ => none
        else if c = '"' then (parseJStr rest).map fun pr => (Json.str pr.1, pr.2)
        else if c = Char.ofNat 91 then
          match skipWs rest with
          | c2 :: r2 => if c2 = Char.ofNat 93 then some (Json.arr [], r2)
              else parseJCore f 1 (skipWs rest)
          | [] => none
        else if c = Char.ofNat 123 then
          match skipWs rest with
          | c2 :: r2 => if c2 = Char.ofNat 125 then some (Json.obj [], r2)
              else parseJCore f 2 (skipWs rest)
          | [] => none
        else if c = '-' ∨ c.isDigit then parseJNum (c :: rest)
        else none

/-- Python `json.loads`: one JSON value followed only by whitespace; any
violation raises `JSONDecodeError`, modelled as `none`. (The non-standard
`NaN`/`Infinity` extension is not modelled; the claims never meet it.) -/
def json_loads (s : List Char) : Option Json :=
  match parseJCore (2 * s.length + 2) 0 s with
  | some (v, rest) => if skipWs rest = [] then some v else none
  | none => none

/-! ## normalize_experience (`parser.py` lines 543-594) -/

/-- The capture group `(\d+(?:\.\d+)?)` as group 1. -/
def numGrpRE : RE :=
  RE.grp 1 (RE.seq (REplus digitCls)
    (RE.opt (RE.seq (RE.cls fun c => c = '.') (REplus digitCls))))

/-- Pattern `(\d+(?:\.\d+)?)\s*\+`. -/
def plusRE : RE := RE.seq numGrpRE (RE.seq wsStar (RE.cls fun c => c = '+'))

/-- Literal `years?`. -/
def yearsWord : RE := RE.seq (litSeq "year".data) (RE.opt (RE.cls fun c => c = 's'))

/-- Literal `months?`. -/
def monthsWord : RE := RE.seq (litSeq "month".data) (RE.opt (RE.cls fun c => c = 's'))

/-- Pattern `(\d+(?:\.\d+)?)\s*years?\s*(\d+)\s*months?`. -/
def ymRE : RE :=
  RE.seq numGrpRE (RE.seq wsStar (RE.seq yearsWord (RE.seq wsStar
    (RE.seq (RE.grp 2 (REplus digitCls)) (RE.seq wsStar monthsWord)))))

/-- Pattern `(\d+(?:\.\d+)?)\s*months?`. -/
def moRE : RE := RE.seq numGrpRE (RE.seq wsStar monthsWord)

/-- Pattern `(\d+(?:\.\d+)?)\s*years?`. -/
def yoRE : RE := RE.seq numGrpRE (RE.seq wsStar yearsWord)

/-- Pattern `^(\d+(?:\.\d+)?)$` (anchored at both ends). -/
def anchNumRE : RE := RE.seq numGrpRE RE.eos

/-- Python `float()` of a captured `\d+(\.\d+)?` literal. -/
def decVal (g : List Char) : PyRat :=
  let ip := g.takeWhile Char.isDigit
  let rest := g.dropWhile Char.isDigit
  match rest with
  | _ :: fr =>
    ⟨(digitsToNat ip : Nat) * ((10 ^ fr.length : Nat) : Int) + (digitsToNat fr : Nat),
      ((10 ^ fr.length : Nat) : Int)⟩
  | [] => ⟨(digitsToNat ip : Nat), 1⟩

/-- `normalize_experience`: the inner helper of `_parse_json_response`. -/
def normalize_experience (v : Json) : Option (List Char) :=
  if !pyTruthy v then none
  else
    let exp_str := lowerL (pyStrip (pyStr v))
    if exp_str = [] || exp_str = "null".data || exp_str = "none".data then none
    else if exp_str.any (fun c => c = '+') then
      match reSearch plusRE exp_str with
      | some caps =>
        match capGet caps 1 with
        | some g => some (g ++ "+".data)
        | none => none
      | none => none
    else
      match reSearch ymRE exp_str with
      | some caps =>
        match capGet caps 1, capGet caps 2 with
        | some g1, some g2 =>
          some (pyFloatStr (PyRat.add (decVal g1)
            (pyRound1 (PyRat.div ⟨(digitsToNat g2 : Nat), 1⟩ ⟨12, 1⟩))))
        | _, _ => none
      | none =>
        match reSearch moRE exp_str with
        | some caps =>
          match capGet caps 1 with
          | some g => some (pyFloatStr (pyRound1 (PyRat.div (decVal g) ⟨12, 1⟩)))
          | none => none
        | none =>
          match reSearch yoRE exp_str with
          | some caps =>
            match capGet caps 1 with
            | some g => some (pyFloatStr (decVal g))
            | none => none
          | none =>
            match reTry anchNumRE exp_str with
            | some pr =>
              match capGet pr.2 1 with
              | some g =>
                let x := decVal g
                if x.isWhole then some (intStr x.trunc) else some (pyFloatStr x)
              | none => none
            | none => none

/-! ## is_diploma_entry and _parse_json_response (`parser.py` lines 451-658) -/

/-- `is_diploma_entry(degree, college)`. -/
def is_diploma_entry (degree college : Json) : Bool :=
  if !pyTruthy degree && !pyTruthy college then false
  else
    let degree_str := if pyTruthy degree then lowerL (pyStr degree) else []
    let college_str := if pyTruthy college then lowerL (pyStr college) else []
    hasSubstr ("diploma".data) degree_str || hasSubstr ("diploma".data) college_str ||
      hasSubstr ("polytechnic".data) college_str

/-- The validated record `_parse_json_response` builds (the keys of its
result dict, in source order). -/
structure ParsedFields where
  name : Json
  email : Option (List Char)
  phone : Option (List Char)
  linkedin : Json
  github : Json
  skills : Json
  total_experience_years : Option (List Char)
  ug_degree : Json
  ug_college : Json
  ug_year : Json
  pg_degree : Json
  pg_college : Json
  pg_year : Json
  work_experience : Json

/-- `validate_email(parsed.get('email'))`: a falsy value validates to
`None`; a truthy string goes through `validate_email`; a truthy non-string
raises `TypeError` inside `re.sub` (outer `none`), which the caller's
`except` clause turns into a whole-response failure. -/
def validateEmailJ (v : Json) : Option (Option (List Char)) :=
  if !pyTruthy v then some none
  else
    match v with
    | Json.str s => some (validate_email s)
    | _ => none

/-- `validate_phone(parsed.get('phone'))`, with the same error convention. -/
def validatePhoneJ (v : Json) : Option (Option (List Char)) :=
  if !pyTruthy v then some none
  else
    match v with
    | Json.str s => some (validate_phone s)
    | _ => none

/-- The UG/PG education handling: a truthy dict entry yields its
degree/college/year unless `is_diploma_entry` holds, in which case (and in
every non-dict or falsy case) all three are `None` together. -/
def eduTriple (e : Json) : Json × Json × Json :=
  match e with
  | Json.obj kvs =>
    if kvs.isEmpty then (Json.null, Json.null, Json.null)
    else
      let d := dictGet kvs ("degree".data)
      let c := dictGet kvs ("college".data)
      let y := dictGet kvs ("year".data)
      if is_diploma_entry d c then (Json.null, Json.null, Json.null)
      else (d, c, y)
  | _ => (Json.null, Json.null, Json.null)

/-- The result-building part of `_parse_json_response` on the decoded JSON
value: `none` models an exception reaching the enclosing `except` clause
(non-dict response, or `TypeError` from e-mail/phone cleanup). -/
def buildResult (parsed : Json) : Option ParsedFields :=
  match parsed with
  | Json.obj kvs =>
    match validateEmailJ (dictGet kvs ("email".data)), validatePhoneJ (dictGet kvs ("phone".data)) with
    | some em, some ph =>
      let ug := eduTriple (dictGet kvs ("ug_education".data))
      let pg := eduTriple (dictGet kvs ("pg_education".data))
      some
        { name := dictGet kvs ("name".data)
          email := em
          phone := ph
          linkedin := dictGet kvs ("linkedin".data)
          github := dictGet kvs ("github".data)
          skills := (dictGet? kvs ("skills".data)).getD (Json.arr [])
          total_experience_years := normalize_experience (dictGet kvs ("total_experience_years".data))
          ug_degree := ug.1
          ug_college := ug.2.1
          ug_year := ug.2.2
          pg_degree := pg.1
          pg_college := pg.2.1
          pg_year := pg.2.2
          work_experience := (dictGet? kvs ("work_experience".data)).getD (Json.arr []) }
    | _, _ => none
  | _ => none

/-- The code-fence stripping at the top of `_parse_json_response`. -/
def stripFence (t : List Char) : List Char :=
  if hasSubstr ("```json".data) t then
    (pySplit ("```".data) ((pySplit ("```json".data) t).getD 1 [])).getD 0 []
  else if hasSubstr ("```".data) t then
    (pySplit ("```".data) ((pySplit ("```".data) t).getD 1 [])).getD 0 []
  else t

/-- `_parse_json_response`: strip an optional code fence, `json.loads` the
stripped text, build the validated record; any exception on the way is
caught and yields `None` (modelled as `none`). -/
def parse_json_response (t : List Char) : Option ParsedFields :=
  match json_loads (pyStrip (stripFence t)) with
  | some parsed => buildResult parsed
  | none => none

/-! ## Claims C3, C4, C9 -/

/-- A fenced service response with surrounding prose, an unexpected extra
key, and no github key. -/
def sampleFenced : List Char :=
  ("Here is the result:\n```json\n\x7b \"name\": \"John\", \"unexpected\": 42, \"skills\": [\"Python\"] \x7d\n```\nThanks!").data

/-- The record `sampleFenced` parses to: github absent (None), the
unexpected key ignored, defaults for everything not supplied. -/
def sampleRecord : ParsedFields :=
  { name := Json.str ("John".data), email := none, phone := none,
    linkedin := Json.null, github := Json.null,
    skills := Json.arr [Json.str ("Python".data)], total_experience_years := none,
    ug_degree := Json.null, ug_college := Json.null, ug_year := Json.null,
    pg_degree := Json.null, pg_college := Json.null, pg_year := Json.null,
    work_experience := Json.arr [] }

/-- C3 counterexample: in a valid JSON response whose email value has the
wrong type, the field is NOT treated as absent: validate_email raises
TypeError inside re.sub, the whole response falls to the except clause, and
the caller gets the no-data value. A wrongly-typed name, in contrast, is
passed through unchanged rather than made absent. Both contradict the
claim that wrongly-typed values for any key are treated as absent fields. -/
theorem claim_C3_counterexample :
    parse_json_response ("\x7b\"email\": 5\x7d".data) = none ∧
    (parse_json_response ("\x7b\"name\": 5\x7d".data)).map ParsedFields.name
      = some (Json.jint 5) :=
  ⟨rfl, rfl⟩

/-- C3 (amended): a response wrapped in a code fence with a language tag
and surrounding prose, in a bare code fence, or not fenced at all parses
successfully; the missing github key is absent and the unexpected extra
key is ignored; a body that does not decode as JSON yields the no-data
value (not an exception). Wrongly-typed email/phone values make the whole
response no-data and other wrongly-typed values pass through unchanged
(see the counterexample), so only the education sub-objects are
type-checked into absence. -/
theorem claim_C3 :
    parse_json_response sampleFenced = some sampleRecord ∧
    parse_json_response
        ("```\n\x7b \"name\": \"John\", \"unexpected\": 42, \"skills\": [\"Python\"] \x7d\n```".data)
      = some sampleRecord ∧
    parse_json_response
        ("\x7b \"name\": \"John\", \"unexpected\": 42, \"skills\": [\"Python\"] \x7d".data)
      = some sampleRecord ∧
    (∀ s, json_loads (pyStrip (stripFence s)) = none → parse_json_response s = none) ∧
    parse_json_response ("This is not JSON.".data) = none := by
  refine ⟨rfl, rfl, rfl, ?_, rfl⟩
  intro s h
  unfold parse_json_response
  rw [h]

/-- Witness for C3: the parse-failure conjunct applied to a concrete
non-JSON response. -/
theorem claim_C3_witness : parse_json_response ("oops".data) = none :=
  claim_C3.2.2.2.1 ("oops".data) rfl

/-- C4: normalize_experience returns nothing on every falsy value (empty
string, null) and on the strings null/none; keeps a number-plus input with
its numeric part and the plus; converts years-and-months and bare months
by rounding months/12 to one decimal; float-formats a years-only count;
formats a bare whole number as an integer and a bare decimal as given; and
returns nothing for unparseable text, never raising (the model is total). -/
theorem claim_C4 :
    (∀ v : Json, pyTruthy v = false → normalize_experience v = none) ∧
    normalize_experience (Json.str ("4+".data)) = some ("4+".data) ∧
    normalize_experience (Json.str ("2 years 6 months".data)) = some ("2.5".data) ∧
    normalize_experience (Json.str ("18 months".data)) = some ("1.5".data) ∧
    normalize_experience (Json.str ("6".data)) = some ("6".data) ∧
    normalize_experience (Json.str ("4.5".data)) = some ("4.5".data) ∧
    normalize_experience (Json.str ("4 years".data)) = some ("4.0".data) ∧
    normalize_experience (Json.str ("".data)) = none ∧
    normalize_experience Json.null = none ∧
    normalize_experience (Json.str ("none".data)) = none ∧
    normalize_experience (Json.str ("abc".data)) = none := by
  refine ⟨?_, rfl, rfl, rfl, rfl, rfl, rfl, rfl, rfl, rfl, rfl⟩
  intro v hv
  simp [normalize_experience, hv]

/-- Witness for C4: the falsy-input conjunct applied to the concrete value
False. -/
theorem claim_C4_witness : normalize_experience (Json.bool false) = none :=
  claim_C4.1 (Json.bool false) rfl

/-- C9: an education entry classified by is_diploma_entry (degree or
college text containing diploma, or college containing polytechnic,
case-insensitively) yields all three sub-fields null together; and the
UG/PG output fields of the response builder are exactly the entry's
triple, so UG/PG fields are never populated from such an entry. The
concrete spec instance: degree Diploma in Engineering with any college
gives three nulls. -/
theorem claim_C9 :
    (∀ kvs : List (List Char × Json),
        is_diploma_entry (dictGet kvs ("degree".data)) (dictGet kvs ("college".data)) = true →
        eduTriple (Json.obj kvs) = (Json.null, Json.null, Json.null)) ∧
    (∀ (kvs : List (List Char × Json)) (r : ParsedFields),
        buildResult (Json.obj kvs) = some r →
        (r.ug_degree, r.ug_college, r.ug_year) = eduTriple (dictGet kvs ("ug_education".data)) ∧
        (r.pg_degree, r.pg_college, r.pg_year) = eduTriple (dictGet kvs ("pg_education".data))) ∧
    eduTriple (Json.obj [(("degree".data), Json.str ("Diploma in Engineering".data)),
        (("college".data), Json.str ("Some College".data)), (("year".data), Json.jint 2015)])
      = (Json.null, Json.null, Json.null) := by
  refine ⟨?_, ?_, rfl⟩
  · intro kvs h
    cases hk : kvs.isEmpty with
    | true => simp [eduTriple, hk]
    | false => simp [eduTriple, hk, h]
  · intro kvs r h
    simp only [buildResult] at h
    cases hem : validateEmailJ (dictGet kvs ("email".data)) with
    | none => rw [hem] at h; simp at h
    | some em =>
      cases hph : validatePhoneJ (dictGet kvs ("phone".data)) with
      | none => rw [hem, hph] at h; simp at h
      | some ph =>
        rw [hem, hph] at h
        simp only [Option.some.injEq] at h
        subst h
        exact ⟨rfl, rfl⟩

/-- Witness for C9: the nulling conjunct applied to a concrete diploma
entry. -/
theorem claim_C9_witness :
    eduTriple (Json.obj [(("degree".data), Json.str ("Diploma in CS".data))])
      = (Json.null, Json.null, Json.null) :=
  claim_C9.1 [(("degree".data), Json.str ("Diploma in CS".data))] (by rfl)

/-! ## GeminiKeyManager (`parser.py` lines 35-160)

Wall-clock instants are natural-number seconds and `datetime.date` is the
day index `t / 86400`. The Python window test `now - req_time <
timedelta(minutes=1)` also keeps entries with a future timestamp; truncated
natural subtraction gives the same answer. All quota state is guarded by
one lock, so `get_available_key` is modelled as one atomic function from
(key list, usage table) to (granted key, updated usage table). -/

/-- Day index of an instant. -/
def dateOf (t : Nat) : Nat := t / 86400

/-- Per-credential usage bookkeeping (one defaultdict entry). -/
structure KeyUsage where
  requests_per_minute : List Nat
  requests_today : Nat
  tokens_per_minute : List (Nat × Nat)
  last_reset : Nat
  is_exhausted : Bool
deriving DecidableEq

/-- The defaultdict initial entry; `d` is the date when it is first
created (`datetime.now().date()` in the default factory). -/
def initUsage (d : Nat) : KeyUsage := ⟨[], 0, [], d, false⟩

/-- Free-tier requests-per-minute cap. -/
def RPM_LIMIT : Nat := 15

/-- Free-tier requests-per-day cap. -/
def RPD_LIMIT : Nat := 1500

/-- Free-tier tokens-per-minute cap. -/
def TPM_LIMIT : Nat := 1000000

/-- `_clean_old_usage`: drop window entries at least 60 seconds old and,
when the date advanced, reset the daily counter and clear the exhausted
flag. -/
def clean_old_usage (now : Nat) (u : KeyUsage) : KeyUsage :=
  let rpm := u.requests_per_minute.filter fun tm => now - tm < 60
  let tpm := u.tokens_per_minute.filter fun pr => now - pr.1 < 60
  if u.last_reset ≠ dateOf now then
    { requests_per_minute := rpm, tokens_per_minute := tpm,
      requests_today := 0, last_reset := dateOf now, is_exhausted := false }
  else
    { u with requests_per_minute := rpm, tokens_per_minute := tpm }

/-- `sum(tokens for _, tokens in usage['tokens_per_minute'])`. -/
def tokenSum (u : KeyUsage) : Nat := u.tokens_per_minute.foldl (fun acc pr => acc + pr.2) 0

/-- Record a granted request: append the timestamp, bump the daily count,
append the token usage — one atomic step with the checks. -/
def recordUsage (now est : Nat) (u : KeyUsage) : KeyUsage :=
  { u with requests_per_minute := u.requests_per_minute ++ [now],
           requests_today := u.requests_today + 1,
           tokens_per_minute := u.tokens_per_minute ++ [(now, est)] }

/-- The four quota checks of the scan body, on a cleaned usage record. -/
def qualifiesB (est : Nat) (u : KeyUsage) : Bool :=
  !u.is_exhausted && decide (u.requests_per_minute.length < RPM_LIMIT)
    && decide (u.requests_today < RPD_LIMIT) && decide (tokenSum u + est ≤ TPM_LIMIT)

/-- The scan of `get_available_key` under the lock: keys in their fixed
order; each key's usage is cleaned (and the cleaned record stored back);
an exhausted key, a key at the RPM cap, a key at the daily cap (which is
then marked exhausted) or a key whose window token sum plus the estimate
would exceed the TPM cap is skipped; the first key passing every check has
its usage recorded in the same step and is returned. -/
def getAvailableKeyAux (now est : Nat) : (Nat → KeyUsage) → List Nat → Option Nat × (Nat → KeyUsage)
  | usage, [] => (none, usage)
  | usage, k :: rest =>
    let u := clean_old_usage now (usage k)
    if u.is_exhausted then getAvailableKeyAux now est (Function.update usage k u) rest
    else if RPM_LIMIT ≤ u.requests_per_minute.length then
      getAvailableKeyAux now est (Function.update usage k u) rest
    else if RPD_LIMIT ≤ u.requests_today then
      getAvailableKeyAux now est (Function.update usage k { u with is_exhausted := true }) rest
    else if TPM_LIMIT < tokenSum u + est then
      getAvailableKeyAux now est (Function.update usage k u) rest
    else (some k, Function.update usage k (recordUsage now est u))

/-- `get_available_key(estimated_tokens)` at instant `now`, on the pool
with key list `keys` and usage table `usage`; returns the granted key (or
nothing — it does not block) and the updated usage table. -/
def get_available_key (now est : Nat) (keys : List Nat) (usage : Nat → KeyUsage) :
    Option Nat × (Nat → KeyUsage) :=
  getAvailableKeyAux now est usage keys

/-- The usage table after `n` consecutive `get_available_key` calls at the
same instant. -/
def poolIter (now est : Nat) (keys : List Nat) (usage0 : Nat → KeyUsage) : Nat → (Nat → KeyUsage)
  | 0 => usage0
  | n + 1 => (getAvailableKeyAux now est (poolIter now est keys usage0 n) keys).2

/-- Filtering twice with one predicate equals filtering once. -/
theorem filter_idem {α : Type} (p : α → Bool) (l : List α) :
    (l.filter p).filter p = l.filter p := by
  induction l with
  | nil => rfl
  | cons a t ih =>
    cases hpa : p a with
    | true => simp [List.filter_cons, hpa, ih]
    | false => simp [List.filter_cons, hpa, ih]

/-- Cleaning is idempotent at a fixed instant: the purge and the daily
rollover each act at most once. -/
theorem clean_old_usage_idem (now : Nat) (u : KeyUsage) :
    clean_old_usage now (clean_old_usage now u) = clean_old_usage now u := by
  unfold clean_old_usage
  by_cases h : u.last_reset = dateOf now <;> simp [h, filter_idem]

/-- Cleaning also fixes the exhaustion-marked variant of a cleaned record. -/
theorem clean_old_usage_marked (now : Nat) (u : KeyUsage) :
    clean_old_usage now { clean_old_usage now u with is_exhausted := true }
      = { clean_old_usage now u with is_exhausted := true } := by
  unfold clean_old_usage
  by_cases h : u.last_reset = dateOf now <;> simp [h, filter_idem]

/-- find? only depends on the predicate's values on the list. -/
theorem find?_congr {α : Type} {p q : α → Bool} :
    ∀ l : List α, (∀ x ∈ l, p x = q x) → l.find? p = l.find? q := by
  intro l
  induction l with
  | nil => intro _; rfl
  | cons a t ih =>
    intro h
    have ha : p a = q a := h a (List.mem_cons_self a t)
    cases hq : q a with
    | true =>
      rw [List.find?_cons_of_pos _ (ha.trans hq), List.find?_cons_of_pos _ hq]
    | false =>
      rw [List.find?_cons_of_neg _ (by simp [ha, hq]), List.find?_cons_of_neg _ (by simp [hq])]
      exact ih fun x hx => h x (List.mem_cons_of_mem a hx)

/-- The scan returns the first key whose cleaned usage passes all four
checks, and the returned key's stored usage is the recorded version of its
cleaned usage. -/
theorem getAvailableKey_spec (now est : Nat) :
    ∀ (keys : List Nat) (usage : Nat → KeyUsage),
      (getAvailableKeyAux now est usage keys).1
        = keys.find? (fun k => qualifiesB est (clean_old_usage now (usage k)))
      ∧ ∀ k, (getAvailableKeyAux now est usage keys).1 = some k →
          (getAvailableKeyAux now est usage keys).2 k
            = recordUsage now est (clean_old_usage now (usage k)) := by
  intro keys
  induction keys with
  | nil =>
    intro usage
    exact ⟨rfl, by intro k h; simp [getAvailableKeyAux] at h⟩
  | cons k0 rest ih =>
    intro usage
    by_cases hq : qualifiesB est (clean_old_usage now (usage k0)) = true
    · have hq' := hq
      simp only [qualifiesB, Bool.and_eq_true, Bool.not_eq_true', decide_eq_true_eq] at hq'
      obtain ⟨⟨⟨hx, hrpm⟩, hrpd⟩, htpm⟩ := hq'
      have heq : getAvailableKeyAux now est usage (k0 :: rest)
          = (some k0, Function.update usage k0
              (recordUsage now est (clean_old_usage now (usage k0)))) := by
        simp only [getAvailableKeyAux]
        rw [if_neg (by simp [hx]), if_neg (by omega), if_neg (by omega), if_neg (by omega)]
      constructor
      · rw [heq]
        simp [List.find?_cons, hq]
      · intro k hk
        rw [heq] at hk
        have hk0 : k = k0 := by simpa using hk.symm
        rw [heq, hk0]
        exact Function.update_same k0 _ usage
    · -- the head key is skipped; identify the stored record v
      have hqf : qualifiesB est (clean_old_usage now (usage k0)) = false := by
        cases hqb : qualifiesB est (clean_old_usage now (usage k0)) with
        | true => exact absurd hqb hq
        | false => rfl
      have skipStep : ∃ v : KeyUsage,
          getAvailableKeyAux now est usage (k0 :: rest)
            = getAvailableKeyAux now est (Function.update usage k0 v) rest ∧
          clean_old_usage now v = v ∧ qualifiesB est v = false := by
        by_cases h1 : (clean_old_usage now (usage k0)).is_exhausted = true
        · refine ⟨clean_old_usage now (usage k0), ?_, clean_old_usage_idem now (usage k0), hqf⟩
          simp only [getAvailableKeyAux]
          rw [if_pos h1]
        · by_cases h2 : RPM_LIMIT ≤ (clean_old_usage now (usage k0)).requests_per_minute.length
          · refine ⟨clean_old_usage now (usage k0), ?_, clean_old_usage_idem now (usage k0), hqf⟩
            simp only [getAvailableKeyAux]
            rw [if_neg (by simp [h1]), if_pos h2]
          · by_cases h3 : RPD_LIMIT ≤ (clean_old_usage now (usage k0)).requests_today
            · refine ⟨{ clean_old_usage now (usage k0) with is_exhausted := true }, ?_,
                clean_old_usage_marked now (usage k0), by simp [qualifiesB]⟩
              simp only [getAvailableKeyAux]
              rw [if_neg (by simp [h1]), if_neg h2, if_pos h3]
            · by_cases h4 : TPM_LIMIT < tokenSum (clean_old_usage now (usage k0)) + est
              · refine ⟨clean_old_usage now (usage k0), ?_, clean_old_usage_idem now (usage k0), hqf⟩
                simp only [getAvailableKeyAux]
                rw [if_neg (by simp [h1]), if_neg h2, if_neg h3, if_pos h4]
              · exact absurd (by
                  simp only [qualifiesB, Bool.and_eq_true, Bool.not_eq_true', decide_eq_true_eq]
                  refine ⟨⟨⟨by simpa using h1, by omega⟩, by omega⟩, by omega⟩) hq
      obtain ⟨v, heq, hcv, hqv⟩ := skipStep
      obtain ⟨ihf, ihr⟩ := ih (Function.update usage k0 v)
      have hcong : rest.find?
            (fun k => qualifiesB est (clean_old_usage now (Function.update usage k0 v k)))
          = rest.find? (fun k => qualifiesB est (clean_old_usage now (usage k))) := by
        apply find?_congr
        intro x _
        by_cases hxk : x = k0
        · subst hxk
          rw [Function.update_same, hcv, hqv, hqf]
        · rw [Function.update_noteq hxk]
      constructor
      · rw [heq, ihf, hcong]
        simp [List.find?_cons, hqf]
      · intro k hk
        rw [heq] at hk ⊢
        have hrec := ihr k hk
        by_cases hxk : k = k0
        · exfalso
          subst hxk
          rw [ihf] at hk
          have hps0 := List.find?_some hk
          have hps : qualifiesB est (clean_old_usage now (Function.update usage k v k)) = true := hps0
          rw [Function.update_same, hcv, hqv] at hps
          exact absurd hps (by simp)
        · rw [hrec, Function.update_noteq hxk]

/-- C1: get_available_key scans the credentials in their fixed order and
returns the first one whose cleaned usage passes all four checks (not
exhausted, fewer than 15 window requests, daily count below 1500, window
token sum plus the estimate at most 1,000,000), recording the granted
credential's usage in the same atomic step; if none qualifies it returns
nothing without blocking. With one credential at one instant, each of the
first 15 calls returns the credential, the 16th returns nothing, and a
call 61 seconds later succeeds again. -/
theorem claim_C1 :
    (∀ (now est : Nat) (keys : List Nat) (usage : Nat → KeyUsage),
        (get_available_key now est keys usage).1
          = keys.find? (fun k => qualifiesB est (clean_old_usage now (usage k)))) ∧
    (∀ (now est : Nat) (keys : List Nat) (usage : Nat → KeyUsage) (k : Nat),
        (get_available_key now est keys usage).1 = some k →
        (get_available_key now est keys usage).2 k
          = recordUsage now est (clean_old_usage now (usage k))) ∧
    (∀ i < 15,
      (get_available_key 0 100 [0] (poolIter 0 100 [0] (fun _ => initUsage 0) i)).1 = some 0) ∧
    (get_available_key 0 100 [0] (poolIter 0 100 [0] (fun _ => initUsage 0) 15)).1 = none ∧
    (get_available_key 61 100 [0] (poolIter 0 100 [0] (fun _ => initUsage 0) 15)).1 = some 0 := by
  refine ⟨?_, ?_, by decide, by decide, by decide⟩
  · intro now est keys usage
    exact (getAvailableKey_spec now est keys usage).1
  · intro now est keys usage k h
    exact (getAvailableKey_spec now est keys usage).2 k h

/-- Witness for C1: the usage-recording conjunct at a concrete pool with
one fresh credential. -/
theorem claim_C1_witness :
    (get_available_key 5 7 [3] (fun _ => initUsage 0)).2 3
      = recordUsage 5 7 (clean_old_usage 5 ((fun _ => initUsage 0) 3)) :=
  claim_C1.2.1 5 7 [3] (fun _ => initUsage 0) 3 (by decide)

/-- A credential that has recorded 1500 requests today, with a fresh
(empty) per-minute window. -/
def dailyFullUsage : KeyUsage := ⟨[], 1500, [], 0, false⟩

/-- C6: cleaning purges exactly the window entries at least 60 seconds old
from both windows before any read; when the wall-clock date has advanced it
resets the daily counter to zero, clears the exhausted flag and stamps the
new date — and cleaning is idempotent, so the reset happens exactly once.
Consequently a credential with 1500 requests today is refused (and marked
exhausted) even with a fresh per-minute window, while after a date rollover
the same credential is granted again with the daily count restarted (0 from
the rollover, then 1 from the recorded grant). -/
theorem claim_C6 :
    (∀ (now : Nat) (u : KeyUsage),
        (clean_old_usage now u).requests_per_minute
          = u.requests_per_minute.filter (fun tm => now - tm < 60) ∧
        (clean_old_usage now u).tokens_per_minute
          = u.tokens_per_minute.filter (fun pr => now - pr.1 < 60)) ∧
    (∀ (now : Nat) (u : KeyUsage), u.last_reset ≠ dateOf now →
        (clean_old_usage now u).requests_today = 0 ∧
        (clean_old_usage now u).is_exhausted = false ∧
        (clean_old_usage now u).last_reset = dateOf now) ∧
    (∀ (now : Nat) (u : KeyUsage),
        clean_old_usage now (clean_old_usage now u) = clean_old_usage now u) ∧
    (get_available_key 30 100 [0] (fun _ => dailyFullUsage)).1 = none ∧
    ((get_available_key 30 100 [0] (fun _ => dailyFullUsage)).2 0).is_exhausted = true ∧
    (get_available_key 86400 100 [0] (fun _ => dailyFullUsage)).1 = some 0 ∧
    ((get_available_key 86400 100 [0] (fun _ => dailyFullUsage)).2 0).requests_today = 1 := by
  refine ⟨?_, ?_, clean_old_usage_idem, by decide, by decide, by decide, by decide⟩
  · intro now u
    unfold clean_old_usage
    by_cases h : u.last_reset = dateOf now <;> simp [h]
  · intro now u h
    unfold clean_old_usage
    simp [h]

/-- Witness for C6: the daily-rollover conjunct at a concrete usage record
whose reset date is behind the current date. -/
theorem claim_C6_witness :
    (clean_old_usage 86400 dailyFullUsage).requests_today = 0 ∧
    (clean_old_usage 86400 dailyFullUsage).is_exhausted = false ∧
    (clean_old_usage 86400 dailyFullUsage).last_reset = dateOf 86400 :=
  claim_C6.2.1 86400 dailyFullUsage (by decide)

/-! ## process_resume (`parser.py` lines 660-710) -/

/-- The result dict of `process_resume`: its four keys, always all set. -/
structure ProcessingResult where
  filename : List Char
  success : Bool
  data : Option ParsedFields
  error : Option (List Char)

/-- The empty-default record returned when no credential is configured
(`parser.py` lines 687-702). -/
def emptyRecord : ParsedFields :=
  { name := Json.null, email := none, phone := none, linkedin := Json.null,
    github := Json.null, skills := Json.arr [], total_experience_years := none,
    ug_degree := Json.null, ug_college := Json.null, ug_year := Json.null,
    pg_degree := Json.null, pg_college := Json.null, pg_year := Json.null,
    work_experience := Json.arr [] }

/-- `process_resume`: extraction and the external call are collaborators,
so they enter as outcomes: `extractOutcome` is the result of
`extract_text` (either the message of the exception it raised or the
extracted text) and `geminiOutcome` the value `parse_with_gemini` returned
(that function cannot raise: it catches every exception and returns None).
The body mirrors the source: the result dict is fully initialised up
front, a too-short extraction raises ValueError("No meaningful text
extracted") which the enclosing except turns into a failed result, a
non-empty pool uses the service outcome, and an empty pool returns success
with the empty-default record and an informational error note. Totality of
this function models that no exception escapes process_resume. -/
def process_resume (filename : List Char) (keys : List (List Char))
    (extractOutcome : Except (List Char) (List Char))
    (geminiOutcome : Option ParsedFields) : ProcessingResult :=
  match extractOutcome with
  | .error e => ⟨filename, false, none, some e⟩
  | .ok text =>
    if text.isEmpty || decide ((pyStrip text).length < 10) then
      ⟨filename, false, none, some ("No meaningful text extracted".data)⟩
    else if !keys.isEmpty then
      match geminiOutcome with
      | some d => ⟨filename, true, some d, none⟩
      | none => ⟨filename, false, none, some ("Failed to parse resume".data)⟩
    else ⟨filename, true, some emptyRecord,
      some ("No API key - text extracted but not parsed".data)⟩

/-- C5: on every path process_resume returns a fully-populated result with
the given filename, data present whenever success is set and an error
message present whenever it is not (no exception escapes: the model is a
total function); extracted text whose trimmed length is under 10 yields
the content-validation failure; and an empty credential pool yields a
successful result carrying the all-defaults record together with the
informational note that parsing was skipped. -/
theorem claim_C5 :
    (∀ (filename : List Char) (keys : List (List Char))
        (eo : Except (List Char) (List Char)) (go : Option ParsedFields),
        (process_resume filename keys eo go).filename = filename ∧
        ((process_resume filename keys eo go).success = true →
          (process_resume filename keys eo go).data.isSome = true) ∧
        ((process_resume filename keys eo go).success = false →
          (process_resume filename keys eo go).data = none ∧
          (process_resume filename keys eo go).error.isSome = true)) ∧
    (∀ (filename : List Char) (keys : List (List Char)) (text : List Char)
        (go : Option ParsedFields), (pyStrip text).length < 10 →
        process_resume filename keys (.ok text) go
          = ⟨filename, false, none, some ("No meaningful text extracted".data)⟩) ∧
    (∀ (filename text : List Char) (go : Option ParsedFields),
        ¬ (pyStrip text).length < 10 →
        process_resume filename [] (.ok text) go
          = ⟨filename, true, some emptyRecord,
              some ("No API key - text extracted but not parsed".data)⟩) := by
  refine ⟨?_, ?_, ?_⟩
  · intro filename keys eo go
    cases eo with
    | error e => exact ⟨rfl, by intro h; simp [process_resume] at h, by intro _; exact ⟨rfl, rfl⟩⟩
    | ok text =>
      by_cases h1 : (text.isEmpty || decide ((pyStrip text).length < 10)) = true
      · refine ⟨by simp [process_resume, h1], ?_, ?_⟩
        · intro h; simp [process_resume, h1] at h
        · intro _; simp [process_resume, h1]
      · cases hk : keys.isEmpty with
        | true =>
          refine ⟨by simp [process_resume, h1, hk], ?_, ?_⟩
          · intro _; simp [process_resume, h1, hk]
          · intro h; simp [process_resume, h1, hk] at h
        | false =>
          cases go with
          | some d =>
            refine ⟨by simp [process_resume, h1, hk], ?_, ?_⟩
            · intro _; simp [process_resume, h1, hk]
            · intro h; simp [process_resume, h1, hk] at h
          | none =>
            refine ⟨by simp [process_resume, h1, hk], ?_, ?_⟩
            · intro h; simp [process_resume, h1, hk] at h
            · intro _; simp [process_resume, h1, hk]
  · intro filename keys text go h
    have hd : decide ((pyStrip text).length < 10) = true := decide_eq_true h
    simp [process_resume, hd]
  · intro filename text go h
    have hne : text.isEmpty = false := by
      cases text with
      | nil => exact absurd (by simp [pyStrip] : (pyStrip ([] : List Char)).length < 10) h
      | cons c rest => rfl
    have hd : decide ((pyStrip text).length < 10) = false := decide_eq_false h
    simp [process_resume, hne, hd]

/-- Witness for C5: the empty-pool conjunct at a concrete file whose
extracted text is long enough. -/
theorem claim_C5_witness :
    process_resume ("r.txt".data) [] (Except.ok ("abcdefghijk".data)) none
      = ⟨"r.txt".data, true, some emptyRecord,
          some ("No API key - text extracted but not parsed".data)⟩ :=
  claim_C5.2.2 ("r.txt".data) ("abcdefghijk".data) none (by decide)

end RP

